import Mathlib

/-!
Verification development for the network-policy-explorer route-computation
engine (the "karto" traffic analyzer) and its surrounding glue.

The repository ships the traffic analyzer's test file
(`analyzer/traffic/traffic_analyzer_test.go`), the service analyzer
(`analyzer/service`), and the HTTP exposition layer (`api/api.go`).
The traffic-analyzer implementation itself (`podIsolationOf`,
`allowedRouteBetween`, `utils.SelectorMatches`) is not part of the
provided sources, so those functions are modelled from the specification
(sections 4.1-4.4) and validated below against every scenario of the
shipped test file.
-/

/-! ## Label sets and the Selector Matcher (spec section 4.1) -/

/-- A label set: a mapping from string keys to string values, keys unique. -/
abbrev Labels := List (String × String)

/-- Look up the value bound to `key` in a label set. -/
def lookupLabel (labels : Labels) (key : String) : Option String :=
  (labels.find? (fun kv => kv.1 == key)).map (fun kv => kv.2)

/-- Set-based label selector operators (In / NotIn / Exists / DoesNotExist). -/
inductive LabelOperator where
  | opIn : LabelOperator
  | opNotIn : LabelOperator
  | opExists : LabelOperator
  | opDoesNotExist : LabelOperator
deriving DecidableEq

/-- One set-based match expression of a label selector. -/
structure LabelSelectorRequirement where
  key : String
  operator : LabelOperator
  values : List String
deriving DecidableEq

/-- A label selector: a conjunction of required exact-match labels plus
optional set-based expressions. An empty selector matches every object. -/
structure LabelSelector where
  matchLabels : List (String × String)
  matchExpressions : List LabelSelectorRequirement
deriving DecidableEq

/-- The empty (match-all) label selector. -/
def emptySelector : LabelSelector := { matchLabels := [], matchExpressions := [] }

/-- Evaluate one set-based requirement against a label set, following the
standard label-selector convention: In requires the key present with a value
in the set; NotIn is satisfied when the key is absent or its value is outside
the set; Exists / DoesNotExist test key presence. -/
def requirementMatches (objectLabels : Labels) (r : LabelSelectorRequirement) : Bool :=
  match r.operator with
  | LabelOperator.opIn =>
    match lookupLabel objectLabels r.key with
    | some v => r.values.contains v
    | none => false
  | LabelOperator.opNotIn =>
    match lookupLabel objectLabels r.key with
    | some v => !(r.values.contains v)
    | none => true
  | LabelOperator.opExists => (lookupLabel objectLabels r.key).isSome
  | LabelOperator.opDoesNotExist => (lookupLabel objectLabels r.key).isNone

/-- Modelled from the spec: `utils.SelectorMatches` (Selector Matcher,
section 4.1), absent from the provided sources. `matches(objectLabels,
selector) -> bool`: a conjunction of the exact-match labels and the
set-based expressions; an empty/absent selector matches every object. -/
def SelectorMatches (objectLabels : Labels) (selector : LabelSelector) : Bool :=
  selector.matchLabels.all (fun kv => lookupLabel objectLabels kv.1 == some kv.2) &&
  selector.matchExpressions.all (fun r => requirementMatches objectLabels r)

/-! ## Data model (spec section 3) -/

/-- A pod: identity (name, namespace) and a label set. -/
structure Pod where
  name : String
  ns : String
  labels : Labels
deriving DecidableEq

/-- A namespace: identity (name) and a label set. -/
structure Namespace where
  name : String
  labels : Labels
deriving DecidableEq

/-- Declared policy types of a network policy. -/
inductive PolicyType where
  | Ingress : PolicyType
  | Egress : PolicyType
deriving DecidableEq

/-- One peer entry of a policy rule: optionally a pod selector, optionally a
namespace selector, optionally a literal IP block (CIDR string). -/
structure NetworkPolicyPeer where
  podSelector : Option LabelSelector
  namespaceSelector : Option LabelSelector
  ipBlock : Option String
deriving DecidableEq

/-- One ingress or egress rule: a list of peers (empty list means "all
sources/destinations") and a list of allowed numeric ports (empty list
means "all ports"). -/
structure PolicyRule where
  peers : List NetworkPolicyPeer
  ports : List Int
deriving DecidableEq

/-- A network policy: identity, its own pod selector (scope), declared
types, and ordered ingress/egress rule lists. -/
structure NetworkPolicy where
  name : String
  ns : String
  labels : Labels
  podSelector : LabelSelector
  policyTypes : List PolicyType
  ingress : List PolicyRule
  egress : List PolicyRule
deriving DecidableEq

/-- Reference to a pod in an output route (types.PodRef). -/
structure PodRef where
  name : String
  ns : String
deriving DecidableEq

/-- Reference to a network policy in an output route (types.NetworkPolicy). -/
structure NetworkPolicyRef where
  name : String
  ns : String
  labels : Labels
deriving DecidableEq

def toPodRef (pod : Pod) : PodRef := { name := pod.name, ns := pod.ns }

def toPolicyRef (p : NetworkPolicy) : NetworkPolicyRef :=
  { name := p.name, ns := p.ns, labels := p.labels }

/-- An allowed route (types.AllowedRoute): source and target pod references,
the justifying egress and ingress policies, and the allowed port set
(`none` means "all ports" / unrestricted). -/
structure AllowedRoute where
  sourcePod : PodRef
  egressPolicies : List NetworkPolicyRef
  targetPod : PodRef
  ingressPolicies : List NetworkPolicyRef
  ports : Option (List Int)
deriving DecidableEq

/-! ## Pod Isolation Classifier (spec section 4.2) -/

/-- A pod plus the subset of policies isolating it for ingress and the
subset isolating it for egress. -/
structure podIsolation where
  Pod : Pod
  IngressPolicies : List NetworkPolicy
  EgressPolicies : List NetworkPolicy
deriving DecidableEq

/-- Modelled from the spec: `podIsolationOf` (Pod Isolation Classifier,
section 4.2), absent from the provided sources; its test file is
`traffic_analyzer_test.go`. Filters `policies` to those whose namespace
equals the pod's namespace AND whose pod selector matches the pod's labels,
then partitions by declared policy type. -/
def podIsolationOf (pod : Pod) (policies : List NetworkPolicy) : podIsolation :=
  let applicable := policies.filter
    (fun p => p.ns == pod.ns && SelectorMatches pod.labels p.podSelector)
  { Pod := pod
    IngressPolicies := applicable.filter (fun p => p.policyTypes.contains PolicyType.Ingress)
    EgressPolicies := applicable.filter (fun p => p.policyTypes.contains PolicyType.Egress) }

/-! ## Peer Acceptance Evaluator (spec section 4.3) -/

/-- Look up a namespace by name in the full namespace list. -/
def namespaceByName (nsName : String) (allNamespaces : List Namespace) : Option Namespace :=
  allNamespaces.find? (fun n => n.name == nsName)

/-- Modelled from the spec: the namespace-selector condition of a peer
(section 4.3 / section 7), absent from the provided sources. The selector is
matched against the labels of the candidate's owning namespace, looked up by
name from `allNamespaces`; an unresolved namespace reference is treated as
"selector does not match" rather than raising. -/
def namespaceSelectorAccepts (selector : LabelSelector) (candidateNs : String)
    (allNamespaces : List Namespace) : Bool :=
  match namespaceByName candidateNs allNamespaces with
  | some n => SelectorMatches n.labels selector
  | none => false

/-- Modelled from the spec: peer acceptance (section 4.3), absent from the
provided sources. A peer accepts the candidate if ALL of its present
selector fields match (AND within a peer); a field that is absent imposes no
condition; IP-block peers are treated as never matching a pod candidate. -/
def peerAccepts (peer : NetworkPolicyPeer) (candidate : Pod)
    (allNamespaces : List Namespace) : Bool :=
  peer.ipBlock.isNone &&
  (match peer.podSelector with
   | some s => SelectorMatches candidate.labels s
   | none => true) &&
  (match peer.namespaceSelector with
   | some s => namespaceSelectorAccepts s candidate.ns allNamespaces
   | none => true)

/-- Modelled from the spec: `ruleAccepts` (section 4.3), absent from the
provided sources. A rule with an empty peer list accepts every candidate;
otherwise the rule accepts the candidate if ANY peer accepts it (OR across
peers). -/
def ruleAccepts (rule : PolicyRule) (candidate : Pod)
    (allNamespaces : List Namespace) : Bool :=
  rule.peers.isEmpty || rule.peers.any (fun peer => peerAccepts peer candidate allNamespaces)

/-- A port contribution: either the "all ports" sentinel or a finite list of
numeric ports (distinct from the empty set, which means "no ports"). -/
inductive Ports where
  | all : Ports
  | only : List Int → Ports
deriving DecidableEq

/-- Modelled from the spec: `portsOf(rule)` (section 4.3). A rule with no
ports listed allows all ports. -/
def portsOf (rule : PolicyRule) : Ports :=
  if rule.ports.isEmpty then Ports.all else Ports.only rule.ports

/-! ## Port algebra (spec section 4.4, steps 1 and 4) -/

/-- Union of two port contributions; the "all" sentinel absorbs any finite set. -/
def portsUnion : Ports → Ports → Ports
  | Ports.all, _ => Ports.all
  | _, Ports.all => Ports.all
  | Ports.only a, Ports.only b => Ports.only (a ++ b.filter (fun p => !(a.contains p)))

/-- Insert a port into an ascending duplicate-free list, keeping it so. -/
def insertPort (x : Int) : List Int → List Int
  | [] => [x]
  | y :: ys =>
    if x < y then x :: y :: ys
    else if x = y then y :: ys
    else y :: insertPort x ys

/-- Sort a port list ascending and remove duplicates. -/
def sortedDedup (l : List Int) : List Int := l.foldr insertPort []

/-- Modelled from the spec: port resolution (section 4.4 step 4). If either
side's matched ports is the "all" sentinel the result is the other side's
ports; if both sides are finite the result is their set intersection, sorted
ascending, duplicates removed. Finite results are emitted sorted ascending
and duplicate-free (as the shipped tests require). -/
def routePorts : Ports → Ports → Ports
  | Ports.all, Ports.all => Ports.all
  | Ports.all, Ports.only b => Ports.only (sortedDedup b)
  | Ports.only a, Ports.all => Ports.only (sortedDedup a)
  | Ports.only a, Ports.only b => Ports.only (sortedDedup (a.filter (fun p => b.contains p)))

/-- Render a port contribution as the output field of an AllowedRoute:
`none` (nil) means unrestricted. -/
def portsOut : Ports → Option (List Int)
  | Ports.all => none
  | Ports.only l => some l

/-! ## Route Resolver (spec section 4.4) -/

/-- Modelled from the spec: the port contribution of a single policy's rule
list towards a candidate (section 4.4 steps 1-2): `none` when no rule of the
policy accepts the candidate, otherwise the union of the accepting rules'
ports (the "all" sentinel absorbs any finite set). -/
def policyContribution (rules : List PolicyRule) (candidate : Pod)
    (allNamespaces : List Namespace) : Option Ports :=
  let accepting := rules.filter (fun r => ruleAccepts r candidate allNamespaces)
  if accepting.isEmpty then none
  else some (accepting.foldl (fun acc r => portsUnion acc (portsOf r)) (Ports.only []))

/-- Modelled from the spec: the egress-side matches of section 4.4 step 1 —
each egress-isolating policy of the source that has at least one egress rule
accepting the target, paired with its port contribution. -/
def egressMatches (sourceIsolation : podIsolation) (target : Pod)
    (allNamespaces : List Namespace) : List (NetworkPolicy × Ports) :=
  sourceIsolation.EgressPolicies.filterMap
    (fun p => (policyContribution p.egress target allNamespaces).map (fun c => (p, c)))

/-- Modelled from the spec: the ingress-side matches of section 4.4 step 2 —
each ingress-isolating policy of the target that has at least one ingress
rule accepting the source, paired with its port contribution. -/
def ingressMatches (targetIsolation : podIsolation) (source : Pod)
    (allNamespaces : List Namespace) : List (NetworkPolicy × Ports) :=
  targetIsolation.IngressPolicies.filterMap
    (fun p => (policyContribution p.ingress source allNamespaces).map (fun c => (p, c)))

/-- Union of the port contributions of one side's matched policies. -/
def sidePorts (ms : List (NetworkPolicy × Ports)) : Ports :=
  ms.foldl (fun acc pc => portsUnion acc pc.2) (Ports.only [])

/-- Modelled from the spec: the egress side's matched ports (section 4.4
step 1): the "all" sentinel when the source has zero egress-isolating
policies, otherwise the union of its matched policies' contributions. -/
def egressSidePorts (sourceIsolation : podIsolation) (target : Pod)
    (allNamespaces : List Namespace) : Ports :=
  if sourceIsolation.EgressPolicies.isEmpty then Ports.all
  else sidePorts (egressMatches sourceIsolation target allNamespaces)

/-- Modelled from the spec: the ingress side's matched ports (section 4.4
step 2), symmetric to `egressSidePorts`. -/
def ingressSidePorts (targetIsolation : podIsolation) (source : Pod)
    (allNamespaces : List Namespace) : Ports :=
  if targetIsolation.IngressPolicies.isEmpty then Ports.all
  else sidePorts (ingressMatches targetIsolation source allNamespaces)

/-- Whether a matched policy's port contribution survives into the final
route ports (section 4.4 step 5): an "all" contribution always survives; a
finite contribution survives when the final ports are unrestricted or share
at least one port with it. -/
def portsSurvive (contribution final : Ports) : Bool :=
  match contribution, final with
  | Ports.all, _ => true
  | _, Ports.all => true
  | Ports.only s, Ports.only f => s.any (fun p => f.contains p)

/-- The final port set of a candidate route (section 4.4 step 4): the
resolution of the egress side's matched ports against the ingress side's. -/
def finalPorts (sourceIsolation targetIsolation : podIsolation)
    (allNamespaces : List Namespace) : Ports :=
  routePorts
    (egressSidePorts sourceIsolation targetIsolation.Pod allNamespaces)
    (ingressSidePorts targetIsolation sourceIsolation.Pod allNamespaces)

/-- The route emitted when the route is permitted (section 4.4 step 5): it
carries only the matched policies whose contribution's ports survive into
the final intersection, and the resolved port set. -/
def routeCandidate (sourceIsolation targetIsolation : podIsolation)
    (allNamespaces : List Namespace) : AllowedRoute :=
  let final := finalPorts sourceIsolation targetIsolation allNamespaces
  { sourcePod := toPodRef sourceIsolation.Pod
    egressPolicies :=
      ((egressMatches sourceIsolation targetIsolation.Pod allNamespaces).filter
        (fun pc => portsSurvive pc.2 final)).map (fun pc => toPolicyRef pc.1)
    targetPod := toPodRef targetIsolation.Pod
    ingressPolicies :=
      ((ingressMatches targetIsolation sourceIsolation.Pod allNamespaces).filter
        (fun pc => portsSurvive pc.2 final)).map (fun pc => toPolicyRef pc.1)
    ports := portsOut final }

/-- Modelled from the spec: `allowedRouteBetween` (Route Resolver, section
4.4), absent from the provided sources; its test file is
`traffic_analyzer_test.go`. Egress is permitted when the source has zero
egress-isolating policies or at least one of them matched; ingress is
symmetric; the route exists only when both hold and the final port
intersection is non-empty or unrestricted; the emitted route carries only
the matched policies whose contribution's ports survive into the final
intersection. -/
def allowedRouteBetween (sourceIsolation targetIsolation : podIsolation)
    (allNamespaces : List Namespace) : Option AllowedRoute :=
  if (sourceIsolation.EgressPolicies.isEmpty ||
        !(egressMatches sourceIsolation targetIsolation.Pod allNamespaces).isEmpty) &&
     (targetIsolation.IngressPolicies.isEmpty ||
        !(ingressMatches targetIsolation sourceIsolation.Pod allNamespaces).isEmpty) then
    if finalPorts sourceIsolation targetIsolation allNamespaces = Ports.only [] then none
    else some (routeCandidate sourceIsolation targetIsolation allNamespaces)
  else none

/-! ## Concrete fixtures mirroring the builders of `testutils` and the
scenarios of `traffic_analyzer_test.go` -/

/-- An equality-only label selector (testutils.NewLabelSelectorBuilder). -/
def selOf (kvs : List (String × String)) : LabelSelector :=
  { matchLabels := kvs, matchExpressions := [] }

/-- A pod fixture (testutils.NewPodBuilder; default namespace "default"). -/
def mkPod (name ns : String) (labels : Labels) : Pod :=
  { name := name, ns := ns, labels := labels }

/-- The default network-policy fixture (testutils.NewNetworkPolicyBuilder):
namespace "default", empty labels, empty pod selector, no types, no rules. -/
def basePolicy : NetworkPolicy :=
  { name := "", ns := "default", labels := [], podSelector := emptySelector,
    policyTypes := [], ingress := [], egress := [] }

/-- A peer carrying only a pod selector. -/
def peerPodSel (kvs : List (String × String)) : NetworkPolicyPeer :=
  { podSelector := some (selOf kvs), namespaceSelector := none, ipBlock := none }

/-- A peer carrying only a namespace selector. -/
def peerNsSel (kvs : List (String × String)) : NetworkPolicyPeer :=
  { podSelector := none, namespaceSelector := some (selOf kvs), ipBlock := none }

/-- A peer carrying both a namespace selector and a pod selector. -/
def peerBoth (nsSel podSel : List (String × String)) : NetworkPolicyPeer :=
  { podSelector := some (selOf podSel), namespaceSelector := some (selOf nsSel),
    ipBlock := none }

/-- An ingress policy fixture with one ingress rule. -/
def npIn (name : String) (peers : List NetworkPolicyPeer) (ports : List Int) : NetworkPolicy :=
  { basePolicy with
    name := name
    policyTypes := [PolicyType.Ingress]
    ingress := [{ peers := peers, ports := ports }] }

/-- An egress policy fixture with one egress rule. -/
def npEg (name : String) (peers : List NetworkPolicyPeer) (ports : List Int) : NetworkPolicy :=
  { basePolicy with
    name := name
    policyTypes := [PolicyType.Egress]
    egress := [{ peers := peers, ports := ports }] }

/-- A pod-isolation fixture. -/
def isoOf (p : Pod) (ing eg : List NetworkPolicy) : podIsolation :=
  { Pod := p, IngressPolicies := ing, EgressPolicies := eg }

def defaultNs : Namespace := { name := "default", labels := [] }

def nsNs : Namespace := { name := "ns", labels := [("name", "ns")] }

/-- The output reference of a fixture policy in namespace "default". -/
def npRef (name : String) : NetworkPolicyRef := { name := name, ns := "default", labels := [] }

/-! Validation of the model against every scenario of
`Test_computePodIsolation` (traffic_analyzer_test.go lines 13-140). -/

def np1 : NetworkPolicy :=
  { basePolicy with
    policyTypes := [PolicyType.Ingress, PolicyType.Egress]
    podSelector := selOf [("app", "foo")] }

example : podIsolationOf (mkPod "Pod1" "default" []) [] =
  isoOf (mkPod "Pod1" "default" []) [] [] := by decide

example : podIsolationOf (mkPod "Pod1" "default" [("app", "foo")]) [np1] =
  isoOf (mkPod "Pod1" "default" [("app", "foo")]) [np1] [np1] := by decide

def np2 : NetworkPolicy := { np1 with podSelector := selOf [("app", "bar")] }

example : podIsolationOf (mkPod "Pod1" "default" [("app", "foo")]) [np2] =
  isoOf (mkPod "Pod1" "default" [("app", "foo")]) [] [] := by decide

def np3 : NetworkPolicy := { np1 with podSelector := emptySelector }

example : podIsolationOf (mkPod "Pod1" "default" [("app", "foo")]) [np3] =
  isoOf (mkPod "Pod1" "default" [("app", "foo")]) [np3] [np3] := by decide

def np4 : NetworkPolicy := { np3 with ns := "other" }

example : podIsolationOf (mkPod "Pod1" "ns" []) [np4] =
  isoOf (mkPod "Pod1" "ns" []) [] [] := by decide

def np5 : NetworkPolicy := { basePolicy with policyTypes := [PolicyType.Ingress] }

example : podIsolationOf (mkPod "Pod1" "default" []) [np5] =
  isoOf (mkPod "Pod1" "default" []) [np5] [] := by decide

def np6 : NetworkPolicy := { basePolicy with policyTypes := [PolicyType.Egress] }

example : podIsolationOf (mkPod "Pod1" "default" []) [np6] =
  isoOf (mkPod "Pod1" "default" []) [] [np6] := by decide

/-! Validation of the model against every scenario of
`Test_computeAllowedRoute` (traffic_analyzer_test.go lines 142-931). -/

example : allowedRouteBetween
    (isoOf (mkPod "Pod1" "default" []) [np5] [])
    (isoOf (mkPod "Pod2" "default" []) [] [np6]) [defaultNs] =
  some { sourcePod := { name := "Pod1", ns := "default" }, egressPolicies := [],
         targetPod := { name := "Pod2", ns := "default" }, ingressPolicies := [],
         ports := none } := by decide

example : allowedRouteBetween
    (isoOf (mkPod "Pod1" "default" [("app", "foo")]) [] [])
    (isoOf (mkPod "Pod2" "default" []) [npIn "np" [peerPodSel [("app", "foo")]] []] [])
    [defaultNs] =
  some { sourcePod := { name := "Pod1", ns := "default" }, egressPolicies := [],
         targetPod := { name := "Pod2", ns := "default" }, ingressPolicies := [npRef "np"],
         ports := none } := by decide

example : allowedRouteBetween
    (isoOf (mkPod "Pod1" "default" [("app", "foo")]) [] [])
    (isoOf (mkPod "Pod2" "default" []) [npIn "np" [peerPodSel [("app", "bar")]] []] [])
    [defaultNs] = none := by decide

example : allowedRouteBetween
    (isoOf (mkPod "Pod1" "ns" []) [] [])
    (isoOf (mkPod "Pod2" "default" []) [npIn "np" [peerNsSel [("name", "ns")]] []] [])
    [nsNs] =
  some { sourcePod := { name := "Pod1", ns := "ns" }, egressPolicies := [],
         targetPod := { name := "Pod2", ns := "default" }, ingressPolicies := [npRef "np"],
         ports := none } := by decide

example : allowedRouteBetween
    (isoOf (mkPod "Pod1" "ns" []) [] [])
    (isoOf (mkPod "Pod2" "default" []) [npIn "np" [peerNsSel [("name", "other")]] []] [])
    [nsNs] = none := by decide

example : allowedRouteBetween
    (isoOf (mkPod "Pod1" "ns" [("app", "foo")]) [] [])
    (isoOf (mkPod "Pod2" "default" [])
      [npIn "np" [peerBoth [("name", "ns")] [("app", "foo")]] []] []) [nsNs] =
  some { sourcePod := { name := "Pod1", ns := "ns" }, egressPolicies := [],
         targetPod := { name := "Pod2", ns := "default" }, ingressPolicies := [npRef "np"],
         ports := none } := by decide

example : allowedRouteBetween
    (isoOf (mkPod "Pod1" "ns" [("app", "foo")]) [] [])
    (isoOf (mkPod "Pod2" "default" [])
      [npIn "np" [peerBoth [("name", "other")] [("app", "foo")]] []] []) [nsNs] =
  none := by decide

example : allowedRouteBetween
    (isoOf (mkPod "Pod1" "ns" [("app", "foo")]) [] [])
    (isoOf (mkPod "Pod2" "default" [])
      [npIn "np" [peerBoth [("name", "ns")] [("app", "bar")]] []] []) [nsNs] =
  none := by decide

example : allowedRouteBetween
    (isoOf (mkPod "Pod1" "default" []) [] [npEg "np" [peerPodSel [("app", "foo")]] []])
    (isoOf (mkPod "Pod2" "default" [("app", "foo")]) [] []) [defaultNs] =
  some { sourcePod := { name := "Pod1", ns := "default" }, egressPolicies := [npRef "np"],
         targetPod := { name := "Pod2", ns := "default" }, ingressPolicies := [],
         ports := none } := by decide

example : allowedRouteBetween
    (isoOf (mkPod "Pod1" "default" []) [] [npEg "np" [peerPodSel [("app", "bar")]] []])
    (isoOf (mkPod "Pod2" "default" [("app", "foo")]) [] []) [defaultNs] = none := by decide

example : allowedRouteBetween
    (isoOf (mkPod "Pod1" "default" []) [] [npEg "np" [peerNsSel [("name", "ns")]] []])
    (isoOf (mkPod "Pod2" "ns" []) [] []) [nsNs] =
  some { sourcePod := { name := "Pod1", ns := "default" }, egressPolicies := [npRef "np"],
         targetPod := { name := "Pod2", ns := "ns" }, ingressPolicies := [],
         ports := none } := by decide

example : allowedRouteBetween
    (isoOf (mkPod "Pod1" "default" []) [] [npEg "np" [peerNsSel [("name", "other")]] []])
    (isoOf (mkPod "Pod2" "ns" []) [] []) [nsNs] = none := by decide

example : allowedRouteBetween
    (isoOf (mkPod "Pod1" "default" []) []
      [npEg "np" [peerBoth [("name", "ns")] [("app", "foo")]] []])
    (isoOf (mkPod "Pod2" "ns" [("app", "foo")]) [] []) [nsNs] =
  some { sourcePod := { name := "Pod1", ns := "default" }, egressPolicies := [npRef "np"],
         targetPod := { name := "Pod2", ns := "ns" }, ingressPolicies := [],
         ports := none } := by decide

example : allowedRouteBetween
    (isoOf (mkPod "Pod1" "default" []) []
      [npEg "np" [peerBoth [("name", "other")] [("app", "foo")]] []])
    (isoOf (mkPod "Pod2" "ns" [("app", "foo")]) [] []) [nsNs] = none := by decide

example : allowedRouteBetween
    (isoOf (mkPod "Pod1" "default" []) []
      [npEg "np" [peerBoth [("name", "ns")] [("app", "bar")]] []])
    (isoOf (mkPod "Pod2" "ns" [("app", "foo")]) [] []) [nsNs] = none := by decide

example : allowedRouteBetween
    (isoOf (mkPod "Pod1" "default" []) [] [npEg "" [peerPodSel []] [80, 8080]])
    (isoOf (mkPod "Pod2" "default" []) [npIn "" [peerPodSel []] [443, 80]] [])
    [defaultNs] =
  some { sourcePod := { name := "Pod1", ns := "default" }, egressPolicies := [npRef ""],
         targetPod := { name := "Pod2", ns := "default" }, ingressPolicies := [npRef ""],
         ports := some [80] } := by decide

example : allowedRouteBetween
    (isoOf (mkPod "Pod1" "default" []) [] [npEg "" [peerPodSel []] []])
    (isoOf (mkPod "Pod2" "default" []) [npIn "" [peerPodSel []] [443, 80]] [])
    [defaultNs] =
  some { sourcePod := { name := "Pod1", ns := "default" }, egressPolicies := [npRef ""],
         targetPod := { name := "Pod2", ns := "default" }, ingressPolicies := [npRef ""],
         ports := some [80, 443] } := by decide

example : allowedRouteBetween
    (isoOf (mkPod "Pod1" "default" []) [] [npEg "" [peerPodSel []] [443, 80]])
    (isoOf (mkPod "Pod2" "default" []) [npIn "" [peerPodSel []] []] []) [defaultNs] =
  some { sourcePod := { name := "Pod1", ns := "default" }, egressPolicies := [npRef ""],
         targetPod := { name := "Pod2", ns := "default" }, ingressPolicies := [npRef ""],
         ports := some [80, 443] } := by decide

example : allowedRouteBetween
    (isoOf (mkPod "Pod1" "default" []) [] [npEg "" [peerPodSel []] []])
    (isoOf (mkPod "Pod2" "default" []) [npIn "" [peerPodSel []] []] []) [defaultNs] =
  some { sourcePod := { name := "Pod1", ns := "default" }, egressPolicies := [npRef ""],
         targetPod := { name := "Pod2", ns := "default" }, ingressPolicies := [npRef ""],
         ports := none } := by decide

example : allowedRouteBetween
    (isoOf (mkPod "Pod1" "default" []) [] [npEg "" [peerPodSel []] [80]])
    (isoOf (mkPod "Pod2" "default" []) [npIn "" [peerPodSel []] [443]] []) [defaultNs] =
  none := by decide

example : allowedRouteBetween
    (isoOf (mkPod "Pod1" "default" []) []
      [npEg "eg1" [peerPodSel []] [80], npEg "eg2" [peerPodSel []] [5000]])
    (isoOf (mkPod "Pod2" "default" [])
      [npIn "in1" [peerPodSel []] [80], npIn "in2" [peerPodSel []] [7000]] [])
    [defaultNs] =
  some { sourcePod := { name := "Pod1", ns := "default" }, egressPolicies := [npRef "eg1"],
         targetPod := { name := "Pod2", ns := "default" }, ingressPolicies := [npRef "in1"],
         ports := some [80] } := by decide

/-! ## Service Target Matcher (analyzer/service, spec section 4.6) -/

/-- A service: identity (name, namespace) and an optional label-map selector
(corev1.Service.Spec.Selector; `none` embeds a nil Go map). -/
structure Service where
  name : String
  ns : String
  selector : Option (List (String × String))
deriving DecidableEq

/-- The analyzed service (types.Service): identity plus its target pods. -/
structure ServiceResult where
  name : String
  ns : String
  targetPods : List PodRef
deriving DecidableEq

/-- Embeds `metav1.SetAsLabelSelector`: an equality-only label selector built
from a label map. -/
def setAsLabelSelector (m : List (String × String)) : LabelSelector :=
  { matchLabels := m, matchExpressions := [] }

/-- Embeds `analyzerImpl.labelsMatches` (analyzer/service): a nil selector
matches nothing; otherwise the map is evaluated as an equality selector via
the Selector Matcher. -/
def labelsMatches (objectLabels : Labels)
    (matchLabels : Option (List (String × String))) : Bool :=
  match matchLabels with
  | none => false
  | some m => SelectorMatches objectLabels (setAsLabelSelector m)

/-- Embeds `analyzerImpl.serviceNamespaceMatches` (analyzer/service). -/
def serviceNamespaceMatches (pod : Pod) (service : Service) : Bool :=
  pod.ns == service.ns

/-- Embeds `analyzerImpl.Analyze` (analyzer/service): the target pods are
exactly the supplied pods whose namespace matches the service's and whose
labels match the service's selector. -/
def serviceAnalyze (service : Service) (pods : List Pod) : ServiceResult :=
  { name := service.name
    ns := service.ns
    targetPods := (pods.filter (fun pod =>
      serviceNamespaceMatches pod service && labelsMatches pod.labels service.selector)).map
        toPodRef }

/-! ## HTTP exposition layer (api/api.go, spec section 5)

The handler of `api.go` guards `lastAnalysisResult` with a `sync.RWMutex`:
`keepUpdated` takes the writer lock for the whole result swap and `ServeHTTP`
reads the value under the reader lock. The interleaving of the worker and
the HTTP readers is embedded as a transition system in which the (in Go
non-atomic) struct assignment is split into one step per field, so that a
torn read is representable and its absence is a real property of the lock
discipline. -/

/-- The analysis result served over HTTP (types.AnalysisResult, spec section
6): pods, services with target pods, policies, and allowed routes. The Go
zero value has all four slices nil/empty. -/
structure AnalysisResult where
  pods : List PodRef
  services : List ServiceResult
  networkPolicies : List NetworkPolicyRef
  allowedRoutes : List AllowedRoute
deriving DecidableEq

/-- The zero value of `AnalysisResult`, the initial content of the handler. -/
def zeroAnalysisResult : AnalysisResult :=
  { pods := [], services := [], networkPolicies := [], allowedRoutes := [] }

/-- Program counter of the updating worker (`handler.keepUpdated`). -/
inductive WorkerPC where
  | idle : WorkerPC
  | acquiring : AnalysisResult → WorkerPC
  | writing : AnalysisResult → Nat → WorkerPC
deriving DecidableEq

/-- Write field `k` of the new result `v` into the shared slot, modelling the
non-atomic Go struct assignment one field at a time. -/
def writeField (slot v : AnalysisResult) : Nat → AnalysisResult
  | 0 => { slot with pods := v.pods }
  | 1 => { slot with services := v.services }
  | 2 => { slot with networkPolicies := v.networkPolicies }
  | _ => { slot with allowedRoutes := v.allowedRoutes }

/-- Global state of the exposition layer: the results channel content, the
(ghost) history of received results, the worker's program counter, the
RWMutex state (writer flag and reader count), the shared slot
`lastAnalysisResult`, and the (ghost) log of values returned to readers. -/
structure ApiState where
  pending : List AnalysisResult
  delivered : List AnalysisResult
  worker : WorkerPC
  writerHeld : Bool
  readers : Nat
  slot : AnalysisResult
  observations : List AnalysisResult

/-- The initial state installed by `Expose`: an empty channel, an idle
worker, a free lock and a zero-valued `lastAnalysisResult`. -/
def apiInit : ApiState :=
  { pending := [], delivered := [], worker := WorkerPC.idle, writerHeld := false,
    readers := 0, slot := zeroAnalysisResult, observations := [] }

/-- One interleaving step of the exposition layer: the producer may enqueue
a result; the worker receives, takes the writer lock, writes the four fields
of the slot one at a time and releases; a reader takes the reader lock (only
while no writer holds the lock), copies the slot out, and releases. -/
inductive ApiStep : ApiState → ApiState → Prop where
  | send (s : ApiState) (v : AnalysisResult) :
      ApiStep s { s with pending := s.pending ++ [v] }
  | recv (s : ApiState) (v : AnalysisResult) (rest : List AnalysisResult) :
      s.worker = WorkerPC.idle → s.pending = v :: rest →
      ApiStep s { s with pending := rest, delivered := s.delivered ++ [v],
                         worker := WorkerPC.acquiring v }
  | lock (s : ApiState) (v : AnalysisResult) :
      s.worker = WorkerPC.acquiring v → s.writerHeld = false → s.readers = 0 →
      ApiStep s { s with writerHeld := true, worker := WorkerPC.writing v 0 }
  | writeStep (s : ApiState) (v : AnalysisResult) (k : Nat) :
      s.worker = WorkerPC.writing v k → k < 4 →
      ApiStep s { s with slot := writeField s.slot v k,
                         worker := WorkerPC.writing v (k + 1) }
  | unlock (s : ApiState) (v : AnalysisResult) :
      s.worker = WorkerPC.writing v 4 →
      ApiStep s { s with writerHeld := false, worker := WorkerPC.idle }
  | rlock (s : ApiState) :
      s.writerHeld = false →
      ApiStep s { s with readers := s.readers + 1 }
  | readStep (s : ApiState) :
      0 < s.readers →
      ApiStep s { s with observations := s.observations ++ [s.slot] }
  | runlock (s : ApiState) :
      0 < s.readers →
      ApiStep s { s with readers := s.readers - 1 }

/-- The states the exposition layer can reach from `apiInit`. -/
inductive ApiReachable : ApiState → Prop where
  | init : ApiReachable apiInit
  | step {s t : ApiState} : ApiReachable s → ApiStep s t → ApiReachable t

/-- A result is complete when it is the zero value or one of the results
received whole from the channel (never a mix of two results). -/
def completeResult (r : AnalysisResult) (delivered : List AnalysisResult) : Prop :=
  r = zeroAnalysisResult ∨ r ∈ delivered

/-- The slot agrees with the new result `v` on its first `k` fields. -/
def slotAgrees (slot v : AnalysisResult) (k : Nat) : Prop :=
  (0 < k → slot.pods = v.pods) ∧
  (1 < k → slot.services = v.services) ∧
  (2 < k → slot.networkPolicies = v.networkPolicies) ∧
  (3 < k → slot.allowedRoutes = v.allowedRoutes)

/-- Inductive invariant of the exposition layer: the slot is a complete
result whenever the writer lock is free, the writer lock excludes readers,
every logged read observation is complete, and the worker's program counter
is consistent with the lock and the slot. -/
def ApiInv (s : ApiState) : Prop :=
  (s.writerHeld = false → completeResult s.slot s.delivered) ∧
  (s.writerHeld = true → s.readers = 0) ∧
  (∀ o ∈ s.observations, completeResult o s.delivered) ∧
  (match s.worker with
   | WorkerPC.idle => s.writerHeld = false
   | WorkerPC.acquiring v => s.writerHeld = false ∧ v ∈ s.delivered
   | WorkerPC.writing v k =>
      s.writerHeld = true ∧ v ∈ s.delivered ∧ k ≤ 4 ∧ slotAgrees s.slot v k)

/-! ## Lemmas about the exposition-layer invariant -/

theorem completeResult_mono {r : AnalysisResult} {d : List AnalysisResult}
    (h : completeResult r d) (v : AnalysisResult) : completeResult r (d ++ [v]) := by
  cases h with
  | inl h => exact Or.inl h
  | inr h => exact Or.inr (List.mem_append_left _ h)

theorem analysisResult_eq_of_agrees {slot v : AnalysisResult}
    (h : slotAgrees slot v 4) : slot = v := by
  obtain ⟨h1, h2, h3, h4⟩ := h
  cases slot
  cases v
  simp only [AnalysisResult.mk.injEq]
  exact ⟨h1 (by omega), h2 (by omega), h3 (by omega), h4 (by omega)⟩

theorem slotAgrees_write {slot v : AnalysisResult} {k : Nat}
    (hk : k < 4) (h : slotAgrees slot v k) :
    slotAgrees (writeField slot v k) v (k + 1) := by
  obtain ⟨h1, h2, h3, h4⟩ := h
  interval_cases k
  · exact ⟨fun _ => rfl, by omega, by omega, by omega⟩
  · exact ⟨fun _ => h1 (by omega), fun _ => rfl, by omega, by omega⟩
  · exact ⟨fun _ => h1 (by omega), fun _ => h2 (by omega), fun _ => rfl, by omega⟩
  · exact ⟨fun _ => h1 (by omega), fun _ => h2 (by omega), fun _ => h3 (by omega),
      fun _ => rfl⟩

theorem apiInv_init : ApiInv apiInit := by
  refine ⟨fun _ => Or.inl rfl, fun h => rfl, ?_, rfl⟩
  intro o ho
  simp [apiInit] at ho

theorem apiInv_step {s t : ApiState} (hs : ApiInv s) (st : ApiStep s t) : ApiInv t := by
  obtain ⟨h1, h2, h3, h4⟩ := hs
  cases st with
  | send v =>
      exact ⟨h1, h2, h3, h4⟩
  | recv v rest hw hp =>
      refine ⟨fun hwf => completeResult_mono (h1 hwf) v, h2,
        fun o ho => completeResult_mono (h3 o ho) v, ?_⟩
      rw [hw] at h4
      exact ⟨h4, List.mem_append_right _ (by simp)⟩
  | lock v hw hwf hr =>
      rw [hw] at h4
      refine ⟨fun h => by simp at h, fun _ => hr, h3, ?_⟩
      exact ⟨rfl, h4.2, by omega, by omega, by omega, by omega, by omega⟩
  | writeStep v k hw hk =>
      rw [hw] at h4
      obtain ⟨hwt, hv, hk4, hag⟩ := h4
      refine ⟨fun h => by rw [hwt] at h; simp at h, fun _ => h2 hwt, h3, ?_⟩
      exact ⟨hwt, hv, by omega, slotAgrees_write hk hag⟩
  | unlock v hw =>
      rw [hw] at h4
      obtain ⟨hwt, hv, _, hag⟩ := h4
      have hsv : s.slot = v := analysisResult_eq_of_agrees hag
      exact ⟨fun _ => Or.inr (hsv ▸ hv), fun h => by simp at h, h3, rfl⟩
  | rlock hwf =>
      refine ⟨h1, fun h => by rw [hwf] at h; simp at h, h3, h4⟩
  | readStep hr =>
      refine ⟨h1, h2, ?_, h4⟩
      intro o ho
      rw [List.mem_append] at ho
      cases ho with
      | inl ho => exact h3 o ho
      | inr ho =>
          have : o = s.slot := by simpa using ho
          subst this
          cases hwb : s.writerHeld with
          | false => exact h1 hwb
          | true => have := h2 hwb; omega
  | runlock hr =>
      exact ⟨h1, fun h => by rw [h2 h], h3, h4⟩

theorem apiInv_reachable {s : ApiState} (h : ApiReachable s) : ApiInv s := by
  induction h with
  | init => exact apiInv_init
  | step _ st ih => exact apiInv_step ih st

/-! ## Lemmas about the port algebra -/

theorem sortedDedup_cons (x : Int) (xs : List Int) :
    sortedDedup (x :: xs) = insertPort x (sortedDedup xs) := rfl

theorem mem_insertPort {x a : Int} {l : List Int} :
    a ∈ insertPort x l ↔ a = x ∨ a ∈ l := by
  induction l with
  | nil => simp [insertPort]
  | cons y ys ih =>
      by_cases h1 : x < y
      · simp [insertPort, h1]
      · by_cases h2 : x = y
        · subst h2
          simp [insertPort, h1]
        · simp [insertPort, h1, h2, ih]
          tauto

theorem pairwise_insertPort {x : Int} {l : List Int}
    (h : List.Pairwise (· < ·) l) : List.Pairwise (· < ·) (insertPort x l) := by
  induction l with
  | nil => simp [insertPort]
  | cons y ys ih =>
      obtain ⟨hy, hys⟩ := List.pairwise_cons.mp h
      by_cases h1 : x < y
      · rw [insertPort, if_pos h1]
        refine List.pairwise_cons.mpr ⟨?_, h⟩
        intro b hb
        rcases List.mem_cons.mp hb with hb | hb
        · omega
        · have := hy b hb
          omega
      · by_cases h2 : x = y
        · rw [insertPort, if_neg h1, if_pos h2]
          exact h
        · rw [insertPort, if_neg h1, if_neg h2]
          refine List.pairwise_cons.mpr ⟨?_, ih hys⟩
          intro b hb
          rcases mem_insertPort.mp hb with hb | hb
          · omega
          · exact hy b hb

theorem mem_sortedDedup {l : List Int} {a : Int} : a ∈ sortedDedup l ↔ a ∈ l := by
  induction l with
  | nil => simp [sortedDedup]
  | cons x xs ih =>
      rw [sortedDedup_cons, mem_insertPort, ih]
      simp

theorem pairwise_sortedDedup (l : List Int) : List.Pairwise (· < ·) (sortedDedup l) := by
  induction l with
  | nil => simp [sortedDedup]
  | cons x xs ih =>
      rw [sortedDedup_cons]
      exact pairwise_insertPort ih

/-! ## Claim theorems -/

/-- C4: for every pod P and list of policies, a policy appears in the
ingress-policies subset of `podIsolationOf(P, policies)` iff the policy's
pod selector matches P's labels, the policy's namespace equals P's
namespace, and its declared types include Ingress (symmetrically with
Egress); in particular a policy in one namespace never isolates a pod in a
different namespace, regardless of its selector. -/
theorem podIsolation_characterization :
    ∀ (pod : Pod) (policies : List NetworkPolicy) (p : NetworkPolicy),
      (p ∈ (podIsolationOf pod policies).IngressPolicies ↔
        p ∈ policies ∧ SelectorMatches pod.labels p.podSelector = true ∧
          p.ns = pod.ns ∧ PolicyType.Ingress ∈ p.policyTypes) ∧
      (p ∈ (podIsolationOf pod policies).EgressPolicies ↔
        p ∈ policies ∧ SelectorMatches pod.labels p.podSelector = true ∧
          p.ns = pod.ns ∧ PolicyType.Egress ∈ p.policyTypes) ∧
      (p.ns ≠ pod.ns →
        p ∉ (podIsolationOf pod policies).IngressPolicies ∧
        p ∉ (podIsolationOf pod policies).EgressPolicies) := by
  intro pod policies p
  have hmem : ∀ t : PolicyType,
      p ∈ (policies.filter
        (fun q => q.ns == pod.ns && SelectorMatches pod.labels q.podSelector)).filter
          (fun q => q.policyTypes.contains t) ↔
      p ∈ policies ∧ SelectorMatches pod.labels p.podSelector = true ∧
        p.ns = pod.ns ∧ t ∈ p.policyTypes := by
    intro t
    simp only [List.mem_filter, Bool.and_eq_true, beq_iff_eq, List.contains,
      List.elem_eq_mem, decide_eq_true_eq]
    tauto
  refine ⟨hmem PolicyType.Ingress, hmem PolicyType.Egress, ?_⟩
  intro hns
  constructor
  · intro hmemI
    exact hns ((hmem PolicyType.Ingress).mp hmemI).2.2.1
  · intro hmemE
    exact hns ((hmem PolicyType.Egress).mp hmemE).2.2.1

/-- C4 witness: the cross-namespace policy `np4` (namespace "other") never
isolates pod Pod1 in namespace "ns". -/
theorem podIsolation_characterization_wit :
    np4 ∉ (podIsolationOf (mkPod "Pod1" "ns" []) [np4]).IngressPolicies ∧
    np4 ∉ (podIsolationOf (mkPod "Pod1" "ns" []) [np4]).EgressPolicies :=
  (podIsolation_characterization (mkPod "Pod1" "ns" []) [np4] np4).2.2 (by decide)

/-- C6: a rule with a non-empty peer list accepts a candidate iff at least
one peer accepts it (OR across peers); a peer carrying both a pod selector
and a namespace selector accepts only when both match (AND within a peer);
a peer with only one of the two selectors ignores the other condition. -/
theorem ruleAccepts_or_and :
    ∀ (rule : PolicyRule) (candidate : Pod) (allNamespaces : List Namespace),
      (rule.peers ≠ [] →
        (ruleAccepts rule candidate allNamespaces = true ↔
          ∃ peer ∈ rule.peers, peerAccepts peer candidate allNamespaces = true)) ∧
      (∀ ps nsel,
        peerAccepts
            { podSelector := some ps, namespaceSelector := some nsel, ipBlock := none }
            candidate allNamespaces = true ↔
          SelectorMatches candidate.labels ps = true ∧
            namespaceSelectorAccepts nsel candidate.ns allNamespaces = true) ∧
      (∀ ps,
        peerAccepts
            { podSelector := some ps, namespaceSelector := none, ipBlock := none }
            candidate allNamespaces = SelectorMatches candidate.labels ps) ∧
      (∀ nsel,
        peerAccepts
            { podSelector := none, namespaceSelector := some nsel, ipBlock := none }
            candidate allNamespaces =
          namespaceSelectorAccepts nsel candidate.ns allNamespaces) := by
  intro rule candidate allNamespaces
  refine ⟨?_, ?_, ?_, ?_⟩
  · intro hne
    have h : rule.peers.isEmpty = false := by
      cases h : rule.peers.isEmpty
      · rfl
      · exact absurd (List.isEmpty_iff.mp h) hne
    simp [ruleAccepts, h, List.any_eq_true]
  · intro ps nsel
    simp [peerAccepts]
  · intro ps
    simp [peerAccepts]
  · intro nsel
    simp [peerAccepts]

/-- C6 witness: a one-peer rule requiring both app=foo and the namespace
label name=ns accepts the matching pod and its acceptance coincides with
the conjunction of the two selector checks. -/
theorem ruleAccepts_or_and_wit :
    ruleAccepts { peers := [peerBoth [("name", "ns")] [("app", "foo")]], ports := [] }
      (mkPod "Pod1" "ns" [("app", "foo")]) [nsNs] = true ∧
    SelectorMatches (mkPod "Pod1" "ns" [("app", "foo")]).labels (selOf [("app", "foo")]) = true ∧
    namespaceSelectorAccepts (selOf [("name", "ns")]) (mkPod "Pod1" "ns" [("app", "foo")]).ns
      [nsNs] = true := by
  refine ⟨?_, by decide, by decide⟩
  refine ((ruleAccepts_or_and
    { peers := [peerBoth [("name", "ns")] [("app", "foo")]], ports := [] }
    (mkPod "Pod1" "ns" [("app", "foo")]) [nsNs]).1 (by decide)).mpr ?_
  refine ⟨peerBoth [("name", "ns")] [("app", "foo")], by decide, by decide⟩

/-- C8: a peer whose namespace selector refers to a candidate namespace that
is absent from `allNamespaces` is treated as not matching: the peer does not
accept the candidate, and no error is raised (the evaluator is a total
boolean function). -/
theorem unresolvedNamespace_noMatch :
    ∀ (peer : NetworkPolicyPeer) (candidate : Pod) (allNamespaces : List Namespace)
      (sel : LabelSelector),
      peer.namespaceSelector = some sel →
      namespaceByName candidate.ns allNamespaces = none →
      peerAccepts peer candidate allNamespaces = false := by
  intro peer candidate allNamespaces sel hsel hlook
  simp [peerAccepts, hsel, namespaceSelectorAccepts, hlook]

/-- C8 witness: a match-all namespace-selector peer does not accept a pod
whose namespace "missing" is absent from the namespace list. -/
theorem unresolvedNamespace_noMatch_wit :
    peerAccepts (peerNsSel []) (mkPod "Pod1" "missing" []) [defaultNs] = false :=
  unresolvedNamespace_noMatch (peerNsSel []) (mkPod "Pod1" "missing" []) [defaultNs]
    (selOf []) (by decide) (by decide)

/-- C5: a side with zero isolating policies for its direction is
unconditionally permitted with the "all ports" sentinel and zero matched
policies; when the source has zero egress policies and the target zero
ingress policies, the route is allowed with unrestricted (nil) ports and
empty policy lists. -/
theorem nonIsolated_unrestricted :
    ∀ (src tgt : podIsolation) (nss : List Namespace),
      (src.EgressPolicies = [] →
        egressMatches src tgt.Pod nss = [] ∧
        egressSidePorts src tgt.Pod nss = Ports.all) ∧
      (tgt.IngressPolicies = [] →
        ingressMatches tgt src.Pod nss = [] ∧
        ingressSidePorts tgt src.Pod nss = Ports.all) ∧
      (src.EgressPolicies = [] → tgt.IngressPolicies = [] →
        allowedRouteBetween src tgt nss =
          some { sourcePod := toPodRef src.Pod, egressPolicies := [],
                 targetPod := toPodRef tgt.Pod, ingressPolicies := [],
                 ports := none }) := by
  intro src tgt nss
  refine ⟨?_, ?_, ?_⟩
  · intro h
    exact ⟨by simp [egressMatches, h], by simp [egressSidePorts, h]⟩
  · intro h
    exact ⟨by simp [ingressMatches, h], by simp [ingressSidePorts, h]⟩
  · intro h1 h2
    simp [allowedRouteBetween, finalPorts, routeCandidate, egressMatches, ingressMatches,
      egressSidePorts, ingressSidePorts, routePorts, portsOut, h1, h2]

/-- C5 witness: two pods with no isolating policies at all yield an allowed
route with unrestricted ports and no policies listed. -/
theorem nonIsolated_unrestricted_wit :
    allowedRouteBetween (isoOf (mkPod "Pod1" "default" []) [] [])
        (isoOf (mkPod "Pod2" "default" []) [] []) [defaultNs] =
      some { sourcePod := toPodRef (mkPod "Pod1" "default" []), egressPolicies := [],
             targetPod := toPodRef (mkPod "Pod2" "default" []), ingressPolicies := [],
             ports := none } :=
  (nonIsolated_unrestricted (isoOf (mkPod "Pod1" "default" []) [] [])
    (isoOf (mkPod "Pod2" "default" []) [] []) [defaultNs]).2.2 rfl rfl

/-- C2: when both sides matched at least one policy and the computed egress
and ingress port sets are finite and disjoint, `allowedRouteBetween` returns
nil (no route); and it never returns an allowed route with an empty port
set. -/
theorem disjointPorts_denied :
    (∀ (src tgt : podIsolation) (nss : List Namespace) (a b : List Int),
      egressMatches src tgt.Pod nss ≠ [] →
      ingressMatches tgt src.Pod nss ≠ [] →
      egressSidePorts src tgt.Pod nss = Ports.only a →
      ingressSidePorts tgt src.Pod nss = Ports.only b →
      (∀ x ∈ a, x ∉ b) →
      allowedRouteBetween src tgt nss = none) ∧
    (∀ (src tgt : podIsolation) (nss : List Namespace) (route : AllowedRoute),
      allowedRouteBetween src tgt nss = some route → route.ports ≠ some []) := by
  constructor
  · intro src tgt nss a b hem him he hi hd
    have hfil : a.filter (fun p => b.contains p) = [] := by
      rw [List.filter_eq_nil_iff]
      intro x hx
      simpa [List.contains, List.elem_eq_mem] using hd x hx
    have hfinal : finalPorts src tgt nss = Ports.only [] := by
      rw [finalPorts, he, hi, routePorts, hfil]
      rfl
    simp [allowedRouteBetween, hfinal]
  · intro src tgt nss route h
    rw [allowedRouteBetween] at h
    split at h
    · split at h
      · exact absurd h (by simp)
      · next hfne =>
          have hr : route = routeCandidate src tgt nss := (Option.some.inj h).symm
          subst hr
          cases hf : finalPorts src tgt nss with
          | all => simp [routeCandidate, portsOut, hf]
          | only l =>
              have hl : l ≠ [] := fun hle => hfne (by rw [hf, hle])
              simp [routeCandidate, portsOut, hf, hl]
    · exact absurd h (by simp)

/-- C2 witness: an egress side restricted to port 80 against an ingress side
restricted to port 443 yields no route even though both sides matched. -/
theorem disjointPorts_denied_wit :
    allowedRouteBetween (isoOf (mkPod "Pod1" "default" []) [] [npEg "" [peerPodSel []] [80]])
      (isoOf (mkPod "Pod2" "default" []) [npIn "" [peerPodSel []] [443]] [])
      [defaultNs] = none :=
  disjointPorts_denied.1
    (isoOf (mkPod "Pod1" "default" []) [] [npEg "" [peerPodSel []] [80]])
    (isoOf (mkPod "Pod2" "default" []) [npIn "" [peerPodSel []] [443]] [])
    [defaultNs] [80] [443] (by decide) (by decide) (by decide) (by decide) (by decide)

/-- C3: the permitted route's port set is the resolution of the two sides'
matched ports: if either side is the "all" sentinel the result is the other
side's port set (sorted ascending, duplicates removed); if both sides are
finite it is their set intersection sorted ascending without duplicates; if
both are "all" it is nil (unrestricted); concretely egress ports {80,8080}
against ingress ports {80,443} give {80}, egress "all" against ingress
{80,443} gives {80,443}, and "all" against "all" gives nil. -/
theorem routePorts_resolution :
    (∀ (src tgt : podIsolation) (nss : List Namespace) (route : AllowedRoute),
      allowedRouteBetween src tgt nss = some route →
      route.ports = portsOut (finalPorts src tgt nss)) ∧
    (∀ b : List Int, ∃ l, routePorts Ports.all (Ports.only b) = Ports.only l ∧
      (∀ x, x ∈ l ↔ x ∈ b) ∧ List.Pairwise (· < ·) l) ∧
    (∀ a : List Int, ∃ l, routePorts (Ports.only a) Ports.all = Ports.only l ∧
      (∀ x, x ∈ l ↔ x ∈ a) ∧ List.Pairwise (· < ·) l) ∧
    (∀ a b : List Int, ∃ l, routePorts (Ports.only a) (Ports.only b) = Ports.only l ∧
      (∀ x, x ∈ l ↔ x ∈ a ∧ x ∈ b) ∧ List.Pairwise (· < ·) l) ∧
    routePorts Ports.all Ports.all = Ports.all ∧ portsOut Ports.all = none ∧
    routePorts (Ports.only [80, 8080]) (Ports.only [80, 443]) = Ports.only [80] ∧
    routePorts Ports.all (Ports.only [80, 443]) = Ports.only [80, 443] := by
  refine ⟨?_, ?_, ?_, ?_, rfl, rfl, by decide, by decide⟩
  · intro src tgt nss route h
    rw [allowedRouteBetween] at h
    split at h
    · split at h
      · exact absurd h (by simp)
      · have hr : route = routeCandidate src tgt nss := (Option.some.inj h).symm
        subst hr
        simp [routeCandidate]
    · exact absurd h (by simp)
  · intro b
    refine ⟨sortedDedup b, rfl, fun x => mem_sortedDedup, pairwise_sortedDedup b⟩
  · intro a
    refine ⟨sortedDedup a, rfl, fun x => mem_sortedDedup, pairwise_sortedDedup a⟩
  · intro a b
    refine ⟨sortedDedup (a.filter (fun p => b.contains p)), rfl, ?_,
      pairwise_sortedDedup _⟩
    intro x
    rw [mem_sortedDedup]
    simp [List.contains, List.elem_eq_mem]

def srcPorts : podIsolation :=
  isoOf (mkPod "Pod1" "default" []) [] [npEg "" [peerPodSel []] [80, 8080]]

def tgtPorts : podIsolation :=
  isoOf (mkPod "Pod2" "default" []) [npIn "" [peerPodSel []] [443, 80]] []

def routePortsWitRoute : AllowedRoute :=
  { sourcePod := { name := "Pod1", ns := "default" }, egressPolicies := [npRef ""],
    targetPod := { name := "Pod2", ns := "default" }, ingressPolicies := [npRef ""],
    ports := some [80] }

/-- C3 witness: on the egress {80,8080} / ingress {443,80} scenario the
emitted route's port field is exactly the rendered final resolution. -/
theorem routePorts_resolution_wit :
    routePortsWitRoute.ports = portsOut (finalPorts srcPorts tgtPorts [defaultNs]) :=
  routePorts_resolution.1 srcPorts tgtPorts [defaultNs] routePortsWitRoute (by decide)

theorem portsSurvive_out (c f : Ports) :
    portsSurvive c f =
      (match c, portsOut f with
       | Ports.all, _ => true
       | _, none => true
       | Ports.only s, some fl => s.any (fun p => fl.contains p)) := by
  cases c <;> cases f <;> rfl

def srcMixed : podIsolation :=
  isoOf (mkPod "Pod1" "default" [])
    [] [npEg "eg1" [peerPodSel []] [80], npEg "eg2" [peerPodSel []] [5000]]

def tgtMixed : podIsolation :=
  isoOf (mkPod "Pod2" "default" [])
    [npIn "in1" [peerPodSel []] [80], npIn "in2" [peerPodSel []] [7000]] []

def routeMixed : AllowedRoute :=
  { sourcePod := { name := "Pod1", ns := "default" }, egressPolicies := [npRef "eg1"],
    targetPod := { name := "Pod2", ns := "default" }, ingressPolicies := [npRef "in1"],
    ports := some [80] }

/-- C1 counterexample: policy eg2 matched the target with an accepting rule
that lists port 5000, the emitted route exists with the non-empty port set
{80}, yet eg2 is NOT listed among the route's egress policies (and in2 is
likewise dropped) — refuting the claim that such a policy must still be
listed. -/
theorem routePolicies_drop_excluded_cex :
    allowedRouteBetween srcMixed tgtMixed [defaultNs] = some routeMixed ∧
    routeMixed.ports = some [80] ∧
    (npEg "eg2" [peerPodSel []] [5000], Ports.only [5000]) ∈
      egressMatches srcMixed tgtMixed.Pod [defaultNs] ∧
    (npEg "eg2" [peerPodSel []] [5000]).egress.all (fun r => !r.ports.isEmpty) = true ∧
    toPolicyRef (npEg "eg2" [peerPodSel []] [5000]) ∉ routeMixed.egressPolicies ∧
    (npIn "in2" [peerPodSel []] [7000], Ports.only [7000]) ∈
      ingressMatches tgtMixed srcMixed.Pod [defaultNs] ∧
    toPolicyRef (npIn "in2" [peerPodSel []] [7000]) ∉ routeMixed.ingressPolicies := by
  decide

/-- C1 (amended): the emitted route carries exactly the policies that
contributed an accepting rule AND whose contribution's ports survive into
the final intersection — a matched policy is listed iff its contribution is
the "all" sentinel, or the route's ports are unrestricted, or its
contribution shares at least one port with the route's emitted ports; a
matched policy whose specific ports were entirely excluded by the other
side's ports is dropped even when its rule had ports and the final route's
ports are non-empty. -/
theorem routePolicies_survival :
    ∀ (src tgt : podIsolation) (nss : List Namespace) (route : AllowedRoute),
      allowedRouteBetween src tgt nss = some route →
      route.egressPolicies =
        ((egressMatches src tgt.Pod nss).filter (fun pc =>
          match pc.2, route.ports with
          | Ports.all, _ => true
          | _, none => true
          | Ports.only s, some f => s.any (fun p => f.contains p))).map
          (fun pc => toPolicyRef pc.1) ∧
      route.ingressPolicies =
        ((ingressMatches tgt src.Pod nss).filter (fun pc =>
          match pc.2, route.ports with
          | Ports.all, _ => true
          | _, none => true
          | Ports.only s, some f => s.any (fun p => f.contains p))).map
          (fun pc => toPolicyRef pc.1) := by
  intro src tgt nss route h
  rw [allowedRouteBetween] at h
  split at h
  · split at h
    · exact absurd h (by simp)
    · have hr : route = routeCandidate src tgt nss := (Option.some.inj h).symm
      subst hr
      constructor
      · simp only [routeCandidate, portsSurvive_out]
      · simp only [routeCandidate, portsSurvive_out]
  · exact absurd h (by simp)

/-- C1 witness: on the mixed-ports scenario the emitted route's policy lists
are exactly the matched policies surviving the port filter. -/
theorem routePolicies_survival_wit :
    routeMixed.egressPolicies =
      ((egressMatches srcMixed tgtMixed.Pod [defaultNs]).filter (fun pc =>
        match pc.2, routeMixed.ports with
        | Ports.all, _ => true
        | _, none => true
        | Ports.only s, some f => s.any (fun p => f.contains p))).map
        (fun pc => toPolicyRef pc.1) ∧
    routeMixed.ingressPolicies =
      ((ingressMatches tgtMixed srcMixed.Pod [defaultNs]).filter (fun pc =>
        match pc.2, routeMixed.ports with
        | Ports.all, _ => true
        | _, none => true
        | Ports.only s, some f => s.any (fun p => f.contains p))).map
        (fun pc => toPolicyRef pc.1) :=
  routePolicies_survival srcMixed tgtMixed [defaultNs] routeMixed (by decide)

/-- C7: the service analyzer targets a pod iff the pod's namespace equals
the service's namespace AND the service's selector is present AND the
selector matches the pod's labels; a service with a nil selector targets
zero pods regardless of the pods supplied. -/
theorem serviceTargeting :
    ∀ (service : Service) (pods : List Pod),
      (service.selector = none → (serviceAnalyze service pods).targetPods = []) ∧
      (∀ pod ∈ pods, ∀ m, service.selector = some m → pod.ns = service.ns →
        SelectorMatches pod.labels (setAsLabelSelector m) = true →
        toPodRef pod ∈ (serviceAnalyze service pods).targetPods) ∧
      (∀ ref ∈ (serviceAnalyze service pods).targetPods,
        ∃ pod ∈ pods, ref = toPodRef pod ∧ pod.ns = service.ns ∧
          ∃ m, service.selector = some m ∧
            SelectorMatches pod.labels (setAsLabelSelector m) = true) := by
  intro service pods
  refine ⟨?_, ?_, ?_⟩
  · intro h
    simp [serviceAnalyze, labelsMatches, h]
  · intro pod hp m hm hns hsel
    simp only [serviceAnalyze, List.mem_map]
    refine ⟨pod, List.mem_filter.mpr ⟨hp, ?_⟩, rfl⟩
    simp [serviceNamespaceMatches, labelsMatches, hm, hns, hsel]
  · intro ref href
    simp only [serviceAnalyze, List.mem_map] at href
    obtain ⟨pod, hpf, rfl⟩ := href
    obtain ⟨hp, hpred⟩ := List.mem_filter.mp hpf
    rw [Bool.and_eq_true] at hpred
    obtain ⟨hns, hsel⟩ := hpred
    cases hm : service.selector with
    | none => rw [hm] at hsel; simp [labelsMatches] at hsel
    | some m =>
        rw [hm] at hsel
        refine ⟨pod, hp, rfl, ?_, m, rfl, ?_⟩
        · simpa [serviceNamespaceMatches] using hns
        · simpa [labelsMatches] using hsel

/-- C7 witness: a service with selector app=foo in namespace "n" targets the
matching pod in "n", and the same service with a nil selector targets no
pod. -/
theorem serviceTargeting_wit :
    toPodRef (mkPod "p1" "n" [("app", "foo")]) ∈
      (serviceAnalyze { name := "s", ns := "n", selector := some [("app", "foo")] }
        [mkPod "p1" "n" [("app", "foo")], mkPod "p2" "m" [("app", "foo")]]).targetPods ∧
    (serviceAnalyze { name := "s", ns := "n", selector := none }
      [mkPod "p1" "n" [("app", "foo")], mkPod "p2" "m" [("app", "foo")]]).targetPods = [] :=
  ⟨(serviceTargeting { name := "s", ns := "n", selector := some [("app", "foo")] }
      [mkPod "p1" "n" [("app", "foo")], mkPod "p2" "m" [("app", "foo")]]).2.1
      (mkPod "p1" "n" [("app", "foo")]) (by decide) [("app", "foo")] rfl rfl (by decide),
   (serviceTargeting { name := "s", ns := "n", selector := none }
      [mkPod "p1" "n" [("app", "foo")], mkPod "p2" "m" [("app", "foo")]]).1 rfl⟩

/-- C9: in every reachable interleaving of the updating worker and the HTTP
readers, every value a reader copies out under the reader lock is a complete
result — the zero value or one of the results received whole from the
channel — never a partially written mix of two results. -/
theorem noTornReads :
    ∀ s : ApiState, ApiReachable s → ∀ o ∈ s.observations,
      o = zeroAnalysisResult ∨ o ∈ s.delivered := by
  intro s hs o ho
  exact (apiInv_reachable hs).2.2.1 o ho

def apiWitState : ApiState :=
  { apiInit with readers := 1, observations := [zeroAnalysisResult] }

theorem apiWitState_reachable : ApiReachable apiWitState :=
  ApiReachable.step (ApiReachable.step ApiReachable.init (ApiStep.rlock apiInit rfl))
    (ApiStep.readStep { apiInit with readers := apiInit.readers + 1 } (by simp))

/-- C9 witness: a reader that runs before any update observes the complete
zero result in a concrete reachable interleaving. -/
theorem noTornReads_wit :
    zeroAnalysisResult = zeroAnalysisResult ∨ zeroAnalysisResult ∈ apiWitState.delivered :=
  noTornReads apiWitState apiWitState_reachable zeroAnalysisResult (by decide)

/-- C10: before the first analysis result has been received on the results
channel, the handler's `lastAnalysisResult` is the zero-value
`AnalysisResult` and every read served so far returned exactly that zero
value (an empty result, not an error or an absent response). -/
theorem initialResult_zero :
    ∀ s : ApiState, ApiReachable s → s.delivered = [] →
      s.slot = zeroAnalysisResult ∧ ∀ o ∈ s.observations, o = zeroAnalysisResult := by
  intro s hs hd
  obtain ⟨h1, h2, h3, h4⟩ := apiInv_reachable hs
  have hwf : s.writerHeld = false := by
    cases hw : s.worker with
    | idle => rw [hw] at h4; exact h4
    | acquiring v => rw [hw] at h4; exact h4.1
    | writing v k =>
        rw [hw] at h4
        rw [hd] at h4
        exact absurd h4.2.1 (by simp)
  refine ⟨?_, ?_⟩
  · cases h1 hwf with
    | inl h => exact h
    | inr h => rw [hd] at h; simp at h
  · intro o ho
    cases h3 o ho with
    | inl h => exact h
    | inr h => rw [hd] at h; simp at h

/-- C10 witness: in the concrete reachable pre-update state the slot is the
zero result and the one recorded read returned it. -/
theorem initialResult_zero_wit :
    apiWitState.slot = zeroAnalysisResult ∧
    ∀ o ∈ apiWitState.observations, o = zeroAnalysisResult :=
  initialResult_zero apiWitState apiWitState_reachable rfl
